import Mathlib

/-
Verification of the levery-market-simulation repository.

The repository contains two JavaScript entry points:
  - src/unnamed/part_000 : the main simulation (cache file, retry wrappers,
    70-multiplier dynamic fee, efficiency percent, margin rounds);
  - src/app.js : an alternate entry point with an asymmetric 0.9-multiplier
    dynamic fee and a differently computed hook price.

The embedding below translates both variants.  JavaScript numbers are
modelled by exact rationals; where a claim is about the IEEE special values
NaN and Infinity (division by zero, arithmetic on the string sentinel), a
dedicated value type JsNum with explicit nan and infinity constructors
models the special-value structure of the computation exactly.
-/

namespace LeverySim

/-- OracleObservation as stored by the simulation: entries of the
rounds cache pushed in fetchHistoricalChainlinkPrices (part_000 lines
132-137): a round identifier, a timestamp in seconds and a decimal price. -/
structure PriceEntry where
  roundId : ℤ
  timestamp : ℤ
  price : ℚ
deriving DecidableEq

/-- TradeRecord as returned by the subgraph query (part_000 lines 24-31):
an identifier, two signed asset deltas, a timestamp and a transaction
reference.  Opaque string identifiers are modelled by naturals, with the
empty initial cursor modelled by 0 (real identifiers are positive). -/
structure Swap where
  id : ℕ
  amount0 : ℚ
  amount1 : ℚ
  timestamp : ℤ
  txId : ℕ
deriving DecidableEq

instance : Inhabited Swap := ⟨⟨0, 0, 0, 0, 0⟩⟩

/-- Comparator used at part_000 line 229: sort((a, b) => b.timestamp - a.timestamp),
a stable sort into descending timestamp order. -/
def tsDesc (a b : PriceEntry) : Prop := b.timestamp ≤ a.timestamp

instance : DecidableRel tsDesc := fun a b => inferInstanceAs (Decidable (b.timestamp ≤ a.timestamp))

instance : IsTotal PriceEntry tsDesc := ⟨fun a b => le_total b.timestamp a.timestamp⟩

instance : IsTrans PriceEntry tsDesc := ⟨fun _ _ _ h1 h2 => le_trans h2 h1⟩

/-- TemporalMatcher, part_000 lines 226-229 (same selection in app.js lines
150-153): filter the observations whose timestamp is at most the swap
timestamp, stable-sort descending by timestamp, take element 0.  A missing
element (undefined) is modelled by none; downstream it becomes the
string sentinel.  JavaScript Array.prototype.sort is a stable sort, here
rendered by insertionSort with the same comparator. -/
def matchObservation (prices : List PriceEntry) (t : ℤ) : Option PriceEntry :=
  (List.insertionSort tsDesc (prices.filter (fun p => p.timestamp ≤ t))).head?

/-- C1: the temporal matcher pairs a trade at time t with an observation of
maximal timestamp among those with timestamp at most t, and it returns the
unavailable sentinel exactly when no observation has timestamp at most t. -/
theorem matchObservation_selects_latest_at_or_before (prices : List PriceEntry) (t : ℤ) :
    (∀ o, matchObservation prices t = some o →
      o ∈ prices ∧ o.timestamp ≤ t ∧
        ∀ p ∈ prices, p.timestamp ≤ t → p.timestamp ≤ o.timestamp) ∧
    (matchObservation prices t = none ↔ ∀ p ∈ prices, t < p.timestamp) := by
  have hperm := List.perm_insertionSort tsDesc (prices.filter (fun p => p.timestamp ≤ t))
  have hsorted := List.sorted_insertionSort tsDesc (prices.filter (fun p => p.timestamp ≤ t))
  constructor
  · intro o ho
    unfold matchObservation at ho
    rcases hs : List.insertionSort tsDesc (prices.filter (fun p => p.timestamp ≤ t)) with
      _ | ⟨a, rest⟩
    · rw [hs] at ho; exact absurd ho (by simp)
    · rw [hs] at ho
      have hao : a = o := by simpa using ho
      subst hao
      rw [hs] at hperm hsorted
      have hmem : a ∈ prices.filter (fun p => p.timestamp ≤ t) :=
        hperm.mem_iff.mp (List.mem_cons_self a rest)
      have hmem2 := List.mem_filter.mp hmem
      refine ⟨hmem2.1, by simpa using hmem2.2, ?_⟩
      intro p hp hpt
      have hpf : p ∈ prices.filter (fun p => p.timestamp ≤ t) :=
        List.mem_filter.mpr ⟨hp, by simpa using hpt⟩
      have hpc : p ∈ a :: rest := hperm.mem_iff.mpr hpf
      rcases List.mem_cons.mp hpc with h | h
      · exact h ▸ le_rfl
      · exact (List.sorted_cons.mp hsorted).1 p h
  · unfold matchObservation
    rw [List.head?_eq_none_iff]
    constructor
    · intro hnil p hp
      have hfil : prices.filter (fun p => p.timestamp ≤ t) = [] := by
        have h2 := hperm.symm
        rw [hnil] at h2
        exact h2.eq_nil
      have := List.filter_eq_nil_iff.mp hfil p hp
      simpa using this
    · intro hall
      have hfil : prices.filter (fun p => p.timestamp ≤ t) = [] :=
        List.filter_eq_nil_iff.mpr (fun p hp => by simpa using not_le.mpr (hall p hp))
      rw [hfil]
      rfl

/-- Witness for C1: on a concrete list the matcher picks the round at
timestamp 5 for a trade at timestamp 6, and that round qualifies. -/
theorem matchObservation_selects_latest_at_or_before_check :
    (⟨1, 5, 10⟩ : PriceEntry) ∈ [(⟨1, 5, 10⟩ : PriceEntry), ⟨2, 9, 20⟩] ∧
      ((⟨1, 5, 10⟩ : PriceEntry)).timestamp ≤ 6 := by
  have h := (matchObservation_selects_latest_at_or_before
    [(⟨1, 5, 10⟩ : PriceEntry), ⟨2, 9, 20⟩] 6).1 ⟨1, 5, 10⟩ (by decide)
  exact ⟨h.1, h.2.1⟩

/-- Fee multiplier constant LP_FEE_MULTIPLIER, part_000 line 15. -/
def LP_FEE_MULTIPLIER : ℚ := 70

/-- Standard fee percent, the literal 0.05 at part_000 line 263 and app.js
line 187. -/
def standardFeePercent : ℚ := 0.05

/-- Direction flag of part_000 lines 209-224: the trade buys ETH exactly
when amount0 is negative; otherwise it sells ETH. -/
def isBuyingETH (amount0 : ℚ) : Bool := decide (amount0 < 0)

/-- Traded price of part_000 lines 214 and 220: minus amount0 over amount1
when buying ETH, amount0 over minus amount1 when selling. -/
def tradePrice (amount0 amount1 : ℚ) : ℚ :=
  if amount0 < 0 then -amount0 / amount1 else amount0 / -amount1

/-- Signed price deviation percent, part_000 line 246. -/
def priceDifferencePercent (price cp : ℚ) : ℚ := (price - cp) / cp * 100

/-- Dynamic fee percent of part_000 lines 243-251: starts at 0.05; when the
oracle price is available, the absolute deviation percent times
LP_FEE_MULTIPLIER over 100 is added. -/
def dynamicLeveryFeePercent (price : ℚ) : Option ℚ → ℚ
  | none => 0.05
  | some cp => 0.05 + |priceDifferencePercent price cp| * LP_FEE_MULTIPLIER / 100

/-- Hook price plus fee, part_000 line 253. -/
def leveryHookPricePlusFee (price fee : ℚ) : ℚ := price + price * fee / 100

/-- Hook price minus fee, part_000 line 254. -/
def leveryHookPriceMinusFee (price fee : ℚ) : ℚ := price - price * fee / 100

/-- Hook price stored in the output record, part_000 lines 308-312: the plus
variant when buying ETH, the minus variant when selling ETH. -/
def leveryHookPrice (price fee : ℚ) (buying : Bool) : ℚ :=
  if buying then leveryHookPricePlusFee price fee else leveryHookPriceMinusFee price fee

/-- Notional size of the trade, part_000 line 264: the larger absolute
asset delta. -/
def swapAmount (amount0 amount1 : ℚ) : ℚ :=
  if |amount0| > |amount1| then |amount0| else |amount1|

/-- Standard fee amount, part_000 line 265. -/
def standardFee (amount0 amount1 : ℚ) : ℚ :=
  swapAmount amount0 amount1 * standardFeePercent / 100

/-- Dynamic fee amount, part_000 line 266. -/
def dynamicLeveryFee (amount0 amount1 fee : ℚ) : ℚ :=
  swapAmount amount0 amount1 * fee / 100

/-- Absolute deviation percent variable of app.js lines 167-173: it stays
zero when the oracle price is unavailable, otherwise it is reassigned to
the absolute deviation percent. -/
def priceDifferencePercentAbsApp (price : ℚ) : Option ℚ → ℚ
  | none => 0
  | some cp => |priceDifferencePercent price cp|

/-- Dynamic fee percent of app.js lines 167-180: base 0.05, plus 0.9 times
the absolute deviation percent, added only when the oracle price is above
the traded price for a buy, or below it for a sell. -/
def dynamicLeveryFeePercentApp (price : ℚ) (buying selling : Bool) : Option ℚ → ℚ
  | none => 0.05
  | some cp =>
    if cp > price ∧ buying then 0.05 + 0.9 * |priceDifferencePercent price cp|
    else if cp < price ∧ selling then 0.05 + 0.9 * |priceDifferencePercent price cp|
    else 0.05

/-- Hook price of app.js line 182: the traded price plus 0.9 times the
absolute deviation percent variable, computed the same way for every trade
direction. -/
def leveryHookPricePlusFeeApp (price : ℚ) (op : Option ℚ) : ℚ :=
  price + 0.9 * priceDifferencePercentAbsApp price op

/-- C2 (amended): in the main entry point the dynamic fee percent of a trade
with available oracle price is exactly the base rate 0.05 plus 70 times the
absolute deviation percent over 100, and the formula has no cap: it exceeds
every bound for a suitable deviation. -/
theorem dynamicFee_linear_in_deviation :
    (∀ price cp : ℚ, dynamicLeveryFeePercent price (some cp)
        = 0.05 + 70 * |priceDifferencePercent price cp| / 100) ∧
    (∀ M : ℚ, ∃ price cp : ℚ, cp ≠ 0 ∧ M < dynamicLeveryFeePercent price (some cp)) := by
  constructor
  · intro price cp
    simp only [dynamicLeveryFeePercent, LP_FEE_MULTIPLIER]
    ring
  · intro M
    refine ⟨1 + (|M| + 1), 1, one_ne_zero, ?_⟩
    simp only [dynamicLeveryFeePercent, LP_FEE_MULTIPLIER, priceDifferencePercent]
    have h1 : (0:ℚ) ≤ |M| := abs_nonneg M
    have h2 : M ≤ |M| := le_abs_self M
    rw [abs_of_nonneg (by linarith : (0:ℚ) ≤ (1 + (|M| + 1) - 1) / 1 * 100)]
    linarith

/-- C2 counterexample: in the alternate entry point app.js, a sell of 1 ETH
for 110 USDC matched to an oracle price of 100 gets dynamic fee percent
0.05 + 0.9 * 10 = 9.05, not the claimed 0.05 + 70 * 10 / 100 = 7.05. -/
theorem dynamicFee_formula_fails_in_app_variant :
    dynamicLeveryFeePercentApp (tradePrice 110 (-1)) (isBuyingETH 110) (!isBuyingETH 110)
        ((matchObservation [⟨7, 50, 100⟩] 60).map PriceEntry.price)
      ≠ 0.05 + 70 * |priceDifferencePercent (tradePrice 110 (-1)) 100| / 100 := by
  have hm : (matchObservation [⟨7, 50, 100⟩] 60).map PriceEntry.price = some 100 := by decide
  have hp : tradePrice 110 (-1) = 110 := by norm_num [tradePrice]
  have hb : isBuyingETH 110 = false := decide_eq_false (by norm_num)
  rw [hm, hp, hb]
  simp only [Bool.not_false, dynamicLeveryFeePercentApp, priceDifferencePercent]
  rw [if_neg, if_pos]
  · rw [show ((110:ℚ) - 100) / 100 * 100 = 10 by norm_num,
      abs_of_nonneg (by norm_num : (0:ℚ) ≤ (10:ℚ))]
    norm_num
  · exact ⟨by norm_num, trivial⟩
  · rintro ⟨h1, -⟩
    exact absurd h1 (by norm_num)

/-- C4 (amended): in the main entry point the stored hook price equals the
traded price increased by price times the dynamic fee percent over 100 when
the trade buys ETH, and decreased by the same quantity when it sells ETH. -/
theorem hookPrice_adjusts_against_trade_direction (a0 a1 : ℚ) (op : Option ℚ) :
    (a0 < 0 →
      leveryHookPrice (tradePrice a0 a1) (dynamicLeveryFeePercent (tradePrice a0 a1) op)
          (isBuyingETH a0)
        = tradePrice a0 a1
            + tradePrice a0 a1 * dynamicLeveryFeePercent (tradePrice a0 a1) op / 100) ∧
    (0 ≤ a0 →
      leveryHookPrice (tradePrice a0 a1) (dynamicLeveryFeePercent (tradePrice a0 a1) op)
          (isBuyingETH a0)
        = tradePrice a0 a1
            - tradePrice a0 a1 * dynamicLeveryFeePercent (tradePrice a0 a1) op / 100) := by
  constructor
  · intro h
    have hb : isBuyingETH a0 = true := decide_eq_true h
    simp [leveryHookPrice, hb, leveryHookPricePlusFee]
  · intro h
    have hb : isBuyingETH a0 = false := decide_eq_false (not_lt.mpr h)
    simp [leveryHookPrice, hb, leveryHookPriceMinusFee]

/-- Witness for C4: concrete buy and sell trades with available oracle
prices get the plus and minus adjustment respectively. -/
theorem hookPrice_adjusts_check :
    (leveryHookPrice (tradePrice (-3000) 1)
        (dynamicLeveryFeePercent (tradePrice (-3000) 1) (some 3000)) (isBuyingETH (-3000))
      = tradePrice (-3000) 1
          + tradePrice (-3000) 1 * dynamicLeveryFeePercent (tradePrice (-3000) 1) (some 3000) / 100) ∧
    (leveryHookPrice (tradePrice 110 (-1))
        (dynamicLeveryFeePercent (tradePrice 110 (-1)) (some 100)) (isBuyingETH 110)
      = tradePrice 110 (-1)
          - tradePrice 110 (-1) * dynamicLeveryFeePercent (tradePrice 110 (-1)) (some 100) / 100) :=
  ⟨(hookPrice_adjusts_against_trade_direction (-3000) 1 (some 3000)).1 (by norm_num),
   (hookPrice_adjusts_against_trade_direction 110 (-1) (some 100)).2 (by norm_num)⟩

/-- C4 counterexample: in app.js the stored hook price of the same concrete
sell trade is 110 + 0.9 * 10 = 119, not the claimed traded price decreased
by price times fee over 100, which is 100.045. -/
theorem hookPrice_claim_fails_in_app_variant :
    leveryHookPricePlusFeeApp (tradePrice 110 (-1))
        ((matchObservation [⟨7, 50, 100⟩] 60).map PriceEntry.price)
      ≠ tradePrice 110 (-1)
          - tradePrice 110 (-1) *
              dynamicLeveryFeePercentApp (tradePrice 110 (-1)) (isBuyingETH 110)
                (!isBuyingETH 110)
                ((matchObservation [⟨7, 50, 100⟩] 60).map PriceEntry.price) / 100 := by
  have hm : (matchObservation [⟨7, 50, 100⟩] 60).map PriceEntry.price = some 100 := by decide
  have hp : tradePrice 110 (-1) = 110 := by norm_num [tradePrice]
  have hb : isBuyingETH 110 = false := decide_eq_false (by norm_num)
  rw [hm, hp, hb]
  simp only [Bool.not_false, leveryHookPricePlusFeeApp, priceDifferencePercentAbsApp,
    dynamicLeveryFeePercentApp, priceDifferencePercent]
  rw [if_neg, if_pos]
  · rw [show ((110:ℚ) - 100) / 100 * 100 = 10 by norm_num,
      abs_of_nonneg (by norm_num : (0:ℚ) ≤ (10:ℚ))]
    norm_num
  · exact ⟨by norm_num, trivial⟩
  · rintro ⟨h1, -⟩
    exact absurd h1 (by norm_num)

/-- C5: the dynamic fee percent is at least the base rate 0.05 in both
fee-formula variants, the standard fee percent is the constant 0.05, and a
trade whose traded price equals the (nonzero) oracle price gets exactly the
base rate in both variants. -/
theorem feePercent_bounds (price : ℚ) (op : Option ℚ) (buying selling : Bool)
    (hop : ∀ cp, op = some cp → cp ≠ 0) :
    standardFeePercent = 0.05 ∧
    0.05 ≤ dynamicLeveryFeePercent price op ∧
    0.05 ≤ dynamicLeveryFeePercentApp price buying selling op ∧
    (op = some price → dynamicLeveryFeePercent price op = 0.05) ∧
    (op = some price → dynamicLeveryFeePercentApp price buying selling op = 0.05) := by
  refine ⟨rfl, ?_, ?_, ?_, ?_⟩
  · cases op with
    | none => simp [dynamicLeveryFeePercent]
    | some cp =>
      simp only [dynamicLeveryFeePercent, LP_FEE_MULTIPLIER]
      have h := abs_nonneg (priceDifferencePercent price cp)
      linarith
  · cases op with
    | none => simp [dynamicLeveryFeePercentApp]
    | some cp =>
      simp only [dynamicLeveryFeePercentApp]
      have h := abs_nonneg (priceDifferencePercent price cp)
      split_ifs <;> linarith
  · intro h
    rw [h]
    simp [dynamicLeveryFeePercent, priceDifferencePercent]
  · intro h
    rw [h]
    simp [dynamicLeveryFeePercentApp, lt_irrefl]

/-- Witness for C5: the bounds at a concrete trade whose price equals the
oracle price 3000. -/
theorem feePercent_bounds_check :
    standardFeePercent = 0.05 ∧
    0.05 ≤ dynamicLeveryFeePercent 3000 (some 3000) ∧
    0.05 ≤ dynamicLeveryFeePercentApp 3000 true false (some 3000) ∧
    (some (3000:ℚ) = some (3000:ℚ) → dynamicLeveryFeePercent 3000 (some 3000) = 0.05) ∧
    (some (3000:ℚ) = some (3000:ℚ) →
      dynamicLeveryFeePercentApp 3000 true false (some 3000) = 0.05) :=
  feePercent_bounds 3000 (some 3000) true false
    (by intro cp h; injection h with h2; rw [← h2]; norm_num)

/-- Oracle round data as returned by getRoundData: an update timestamp in
seconds and a raw integer answer. -/
structure RoundData where
  updatedAt : ℤ
  answer : ℤ

/-- Oracle feed: the latest round identifier, the round data for every
round identifier, and the feed decimals.  This models the three oracle
calls latestRound, getRoundData and decimals used by part_000 lines
125-152. -/
structure Feed where
  latestRound : ℕ
  getRoundData : ℤ → RoundData
  decimals : ℕ

/-- Cache entry pushed at part_000 lines 133-137 and 148-152: the round
identifier, the round timestamp, and the answer scaled down by the feed
decimals (formatUnits followed by parseFloat). -/
def mkEntry (f : Feed) (rid : ℤ) : PriceEntry :=
  ⟨rid, (f.getRoundData rid).updatedAt, ((f.getRoundData rid).answer : ℚ) / 10 ^ f.decimals⟩

/-- Backward walk of part_000 lines 131-142: while the current round
timestamp is above startTime and the round identifier is positive, push
the round when its timestamp is at most endTime and its round identifier
is not already in the list, then decrement.  Returns the list together
with the round identifier at loop exit.  The loop variable only
decrements while positive, so it is a natural number and the recursion is
structural. -/
def chainlinkWalk (f : Feed) (startTime endTime : ℤ) :
    ℕ → List PriceEntry → List PriceEntry × ℕ
  | 0, prices => (prices, 0)
  | rid + 1, prices =>
    if startTime < (f.getRoundData ((rid : ℤ) + 1)).updatedAt then
      chainlinkWalk f startTime endTime rid
        (if (f.getRoundData ((rid : ℤ) + 1)).updatedAt ≤ endTime ∧
            (∀ p ∈ prices, p.roundId ≠ (rid : ℤ) + 1) then
          prices ++ [mkEntry f ((rid : ℤ) + 1)]
        else prices)
    else (prices, rid + 1)

/-- Margin loop of part_000 lines 144-154: five times, decrement the round
identifier and push the fetched round unconditionally, with no window
check, no duplicate check and no positivity guard, so the round identifier
is an integer here. -/
def marginRounds (f : Feed) : ℕ → ℤ → List PriceEntry → List PriceEntry × ℤ
  | 0, rid, prices => (prices, rid)
  | n + 1, rid, prices => marginRounds f n (rid - 1) (prices ++ [mkEntry f (rid - 1)])

/-- OracleHistoryBuilder of part_000 lines 115-161: starting from the
loaded cache, walk backward from the latest round, then fetch five extra
older rounds. -/
def fetchHistoricalChainlinkPrices (f : Feed) (startTime endTime : ℤ)
    (cache : List PriceEntry) : List PriceEntry :=
  let w := chainlinkWalk f startTime endTime f.latestRound cache
  (marginRounds f 5 (w.2 : ℤ) w.1).1

/-- Feed for C7: four rounds (identifiers 3 down to 0) whose timestamps all
stay above the window start, so the backward walk only stops at round
identifier zero. -/
def slowDecayFeed : Feed := ⟨3, fun _ => ⟨100, 2⟩, 0⟩

/-- C7: the claim fails on the code.  On a feed whose round timestamps
never fall at or below the start boundary the walk does stop at round
identifier zero, but the five margin fetches then drive the round
identifier below zero and the returned history contains negative round
identifiers. -/
theorem marginRounds_fetch_negative_roundIds :
    ∃ p ∈ fetchHistoricalChainlinkPrices slowDecayFeed 50 200 [], p.roundId < 0 := by
  decide

/-- Feed for C8: twenty-one rounds (identifiers 20 down to 0) with strictly
increasing timestamps one hundred seconds apart. -/
def steadyFeed : Feed := ⟨20, fun r => ⟨100 * r, 3⟩, 0⟩

/-- C8: the claim fails on the code.  Re-running the builder on an
unchanged feed with the cache produced by the first run appends the five
margin rounds again, because the margin loop has no duplicate check: round
identifier 13 ends up twice in the final list. -/
theorem rerun_with_cache_duplicates_margin_rounds :
    ((fetchHistoricalChainlinkPrices steadyFeed 1450 2500
        (fetchHistoricalChainlinkPrices steadyFeed 1450 2500 [])).filter
      (fun p => p.roundId = 13)).length = 2 := by
  decide

/-- Response of one subgraph page query, part_000 lines 72-85, as a
function of the cursor: none models a response whose pool object is
missing, some gives the swaps array of the page. -/
def SwapSource : Type := ℕ → Option (List Swap)

/-- Outcome of the fetchSwaps loop: fuel ran out (the loop would still be
running), the pool was missing and the function threw, or the accumulated
swaps were returned. -/
inductive FetchOutcome where
  | outOfFuel
  | poolNotFound
  | ok (swaps : List Swap)
deriving DecidableEq

/-- TradeIngestor loop of part_000 lines 66-95 (identical in app.js lines
31-60): query a page at the current cursor; when the pool is missing,
throw at once with no retry; append the page to the accumulator; stop when
the page is shorter than 1000 records, otherwise continue with the
identifier of the last record of the page as the next cursor.  The second
component records every cursor queried, and fuel bounds the iteration
count so the function is total. -/
def fetchSwapsLoop (src : SwapSource) :
    ℕ → ℕ → List Swap → List ℕ → FetchOutcome × List ℕ
  | 0, _, _, calls => (.outOfFuel, calls)
  | fuel + 1, lastId, allSwaps, calls =>
    match src lastId with
    | none => (.poolNotFound, calls ++ [lastId])
    | some page =>
      if page.length < 1000 then (.ok (allSwaps ++ page), calls ++ [lastId])
      else
        fetchSwapsLoop src fuel (page.getLastD default).id (allSwaps ++ page)
          (calls ++ [lastId])

/-- Entry point of fetchSwaps: empty accumulator and the empty initial
cursor, modelled by 0. -/
def fetchSwaps (src : SwapSource) (fuel : ℕ) : FetchOutcome × List ℕ :=
  fetchSwapsLoop src fuel 0 [] []

/-- C9: one step of the trade pagination loop.  A missing pool aborts at
once, with that single query recorded and no retry; a page shorter than
1000 records, the empty page included, ends the loop normally with the
page appended; a full page continues with the identifier of its last
record as the next exclusive cursor. -/
theorem fetchSwaps_pagination_spec (src : SwapSource) (fuel lastId : ℕ)
    (allSwaps : List Swap) (calls : List ℕ) :
    (src lastId = none →
      fetchSwapsLoop src (fuel + 1) lastId allSwaps calls
        = (.poolNotFound, calls ++ [lastId])) ∧
    (∀ page, src lastId = some page → page.length < 1000 →
      fetchSwapsLoop src (fuel + 1) lastId allSwaps calls
        = (.ok (allSwaps ++ page), calls ++ [lastId])) ∧
    (∀ page, src lastId = some page → 1000 ≤ page.length →
      fetchSwapsLoop src (fuel + 1) lastId allSwaps calls
        = fetchSwapsLoop src fuel (page.getLastD default).id (allSwaps ++ page)
            (calls ++ [lastId])) := by
  refine ⟨?_, ?_, ?_⟩
  · intro h
    simp [fetchSwapsLoop, h]
  · intro page h hlen
    simp [fetchSwapsLoop, h, hlen]
  · intro page h hlen
    simp [fetchSwapsLoop, h, Nat.not_lt.mpr hlen]

/-- Swap source whose pool object is missing on every query. -/
def missingPoolSource : SwapSource := fun _ => none

/-- Swap source that returns a single empty page. -/
def emptyPageSource : SwapSource := fun _ => some []

/-- Witness for C9: on the missing-pool source the loop throws after one
query; on the empty-page source it ends normally after one query. -/
theorem fetchSwaps_pagination_check :
    fetchSwapsLoop missingPoolSource 1 0 [] [] = (.poolNotFound, [0]) ∧
    fetchSwapsLoop emptyPageSource 1 0 [] [] = (.ok [], [0]) := by
  constructor
  · have h := (fetchSwaps_pagination_spec missingPoolSource 0 0 [] []).1 rfl
    simpa using h
  · have h := (fetchSwaps_pagination_spec emptyPageSource 0 0 [] []).2.1 [] rfl (by simp)
    simpa using h

/-- Aggregate state of part_000 lines 180-188 restricted to the totals the
loop updates with plain numbers (the efficiency total lives in the
JavaScript-number model below, because it is NaN-tainted whenever an
oracle price is unavailable). -/
structure ResultData where
  totalSwaps : ℕ
  totalVolumeETH : ℚ
  totalVolumeUSDC : ℚ
  totalStandardFee : ℚ
  totalDynamicLeveryFee : ℚ
deriving DecidableEq

/-- Per-swap update of part_000 lines 201-317 for the fields of ResultData:
volume totals and direction (lines 212-224), fee totals from the notional
size and the fee percents (lines 263-269), and the swap count
(line 316). -/
def processSwap (prices : List PriceEntry) (rd : ResultData) (s : Swap) : ResultData :=
  let rd1 :=
    if s.amount0 < 0 then
      { rd with totalVolumeETH := rd.totalVolumeETH + s.amount1,
                totalVolumeUSDC := rd.totalVolumeUSDC + -s.amount0 }
    else
      { rd with totalVolumeETH := rd.totalVolumeETH + -s.amount1,
                totalVolumeUSDC := rd.totalVolumeUSDC + s.amount0 }
  let price := tradePrice s.amount0 s.amount1
  let cp := (matchObservation prices s.timestamp).map PriceEntry.price
  let fee := dynamicLeveryFeePercent price cp
  { rd1 with
    totalStandardFee := rd1.totalStandardFee + standardFee s.amount0 s.amount1,
    totalDynamicLeveryFee := rd1.totalDynamicLeveryFee + dynamicLeveryFee s.amount0 s.amount1 fee,
    totalSwaps := rd1.totalSwaps + 1 }

/-- C10: a trade with no qualifying oracle observation still contributes to
every total: the dynamic fee percent collapses to the base rate 0.05, both
fee amounts are computed from the notional size and added to the fee
totals, the swap count rises by one and the volume totals are updated by
the asset deltas. -/
theorem unmatched_trade_still_counted (prices : List PriceEntry) (rd : ResultData) (s : Swap)
    (h : matchObservation prices s.timestamp = none) :
    (processSwap prices rd s).totalSwaps = rd.totalSwaps + 1 ∧
    dynamicLeveryFeePercent (tradePrice s.amount0 s.amount1)
        ((matchObservation prices s.timestamp).map PriceEntry.price) = 0.05 ∧
    (processSwap prices rd s).totalStandardFee
      = rd.totalStandardFee + swapAmount s.amount0 s.amount1 * 0.05 / 100 ∧
    (processSwap prices rd s).totalDynamicLeveryFee
      = rd.totalDynamicLeveryFee + swapAmount s.amount0 s.amount1 * 0.05 / 100 ∧
    (s.amount0 < 0 →
      (processSwap prices rd s).totalVolumeETH = rd.totalVolumeETH + s.amount1 ∧
      (processSwap prices rd s).totalVolumeUSDC = rd.totalVolumeUSDC + -s.amount0) ∧
    (0 ≤ s.amount0 →
      (processSwap prices rd s).totalVolumeETH = rd.totalVolumeETH + -s.amount1 ∧
      (processSwap prices rd s).totalVolumeUSDC = rd.totalVolumeUSDC + s.amount0) := by
  have hm : (matchObservation prices s.timestamp).map PriceEntry.price = none := by
    rw [h]
    rfl
  by_cases hc : s.amount0 < 0
  · simp [processSwap, hm, hc, dynamicLeveryFeePercent, standardFee, dynamicLeveryFee,
      standardFeePercent, not_le.mpr hc]
  · simp [processSwap, hm, hc, dynamicLeveryFeePercent, standardFee, dynamicLeveryFee,
      standardFeePercent, not_lt.mp hc]

/-- Witness for C10: a concrete buy trade with an empty oracle history is
counted and gets the base fee rate. -/
theorem unmatched_trade_still_counted_check :
    (processSwap [] ⟨0, 0, 0, 0, 0⟩ ⟨1, -3000, 1, 100, 1⟩).totalSwaps = 0 + 1 ∧
    dynamicLeveryFeePercent (tradePrice (-3000) 1)
        ((matchObservation [] 100).map PriceEntry.price) = 0.05 := by
  have h := unmatched_trade_still_counted [] ⟨0, 0, 0, 0, 0⟩ ⟨1, -3000, 1, 100, 1⟩ (by decide)
  exact ⟨h.1, h.2.1⟩

/-- JavaScript number with the IEEE special values: finite doubles are
modelled by exact rationals, and nan, inf, ninf model NaN, Infinity and
-Infinity.  Only the special-value structure matters for the claims that
use this type; rounding of finite values is not modelled. -/
inductive JsNum where
  | num (q : ℚ)
  | nan
  | inf
  | ninf
deriving DecidableEq

/-- Value that is either a number or the string sentinel used by the
simulation for unavailable oracle data. -/
inductive JsVal where
  | num (q : ℚ)
  | na
deriving DecidableEq

/-- Coercion applied when the sentinel enters arithmetic: JavaScript
converts the string to NaN. -/
def JsVal.toNum : JsVal → JsNum
  | .num q => .num q
  | .na => .nan

/-- Negation on JavaScript numbers. -/
def JsNum.neg : JsNum → JsNum
  | .num a => .num (-a)
  | .nan => .nan
  | .inf => .ninf
  | .ninf => .inf

/-- Addition on JavaScript numbers. -/
def JsNum.add : JsNum → JsNum → JsNum
  | .nan, _ => .nan
  | _, .nan => .nan
  | .inf, .ninf => .nan
  | .ninf, .inf => .nan
  | .inf, _ => .inf
  | _, .inf => .inf
  | .ninf, _ => .ninf
  | _, .ninf => .ninf
  | .num a, .num b => .num (a + b)

/-- Subtraction on JavaScript numbers. -/
def JsNum.sub (a b : JsNum) : JsNum := a.add b.neg

/-- Multiplication on JavaScript numbers. -/
def JsNum.mul : JsNum → JsNum → JsNum
  | .nan, _ => .nan
  | _, .nan => .nan
  | .num a, .num b => .num (a * b)
  | .inf, .inf => .inf
  | .ninf, .ninf => .inf
  | .inf, .ninf => .ninf
  | .ninf, .inf => .ninf
  | .inf, .num b => if b = 0 then .nan else if 0 < b then .inf else .ninf
  | .num a, .inf => if a = 0 then .nan else if 0 < a then .inf else .ninf
  | .ninf, .num b => if b = 0 then .nan else if 0 < b then .ninf else .inf
  | .num a, .ninf => if a = 0 then .nan else if 0 < a then .ninf else .inf

/-- Division on JavaScript numbers: a nonzero number divided by zero gives
a signed infinity, zero by zero gives NaN. -/
def JsNum.div : JsNum → JsNum → JsNum
  | .nan, _ => .nan
  | _, .nan => .nan
  | .num a, .num b =>
    if b = 0 then (if a = 0 then .nan else if 0 < a then .inf else .ninf)
    else .num (a / b)
  | .num _, .inf => .num 0
  | .num _, .ninf => .num 0
  | .inf, .num b => if 0 ≤ b then .inf else .ninf
  | .ninf, .num b => if 0 ≤ b then .ninf else .inf
  | .inf, .inf => .nan
  | .inf, .ninf => .nan
  | .ninf, .inf => .nan
  | .ninf, .ninf => .nan

/-- Math.abs on JavaScript numbers. -/
def JsNum.mabs : JsNum → JsNum
  | .num a => .num |a|
  | .nan => .nan
  | .inf => .inf
  | .ninf => .inf

/-- Derived per-trade output fields of part_000 lines 226-312 whose values
can become NaN or infinite in JavaScript: the matched oracle price and
time gap (which get the string sentinel when no observation qualifies),
the output deviation percent recomputed unconditionally at line 301, the
dynamic fee percent, and the efficiency percent of lines 277-284. -/
structure SwapDataJS where
  chainlinkPrice : JsVal
  timeDifference : JsVal
  priceDifferencePercent : JsNum
  dynamicLeveryFeePercent : JsNum
  leveryEfficiencyPercent : JsNum
deriving DecidableEq

/-- Per-trade computation of part_000 lines 201-312 over JavaScript number
semantics.  The traded price stays rational because the asset deltas of a
valid trade are nonzero; every quantity derived from the matched oracle
price goes through JsNum, because the sentinel and a zero oracle price
create NaN and Infinity there. -/
def swapDataJS (prices : List PriceEntry) (s : Swap) : SwapDataJS :=
  let price := tradePrice s.amount0 s.amount1
  let cpd := matchObservation prices s.timestamp
  let chainlinkPrice : JsVal :=
    match cpd with
    | some p => .num p.price
    | none => .na
  let timeDifference : JsVal :=
    match cpd with
    | some p => .num |((s.timestamp - p.timestamp : ℤ) : ℚ)|
    | none => .na
  let fee : JsNum :=
    match cpd with
    | none => .num 0.05
    | some p =>
      (JsNum.num 0.05).add
        ((((((JsNum.num price).sub (.num p.price)).div (.num p.price)).mul
            (.num 100)).mabs.mul (.num 70)).div (.num 100))
  let hookPlus := (JsNum.num price).add (((JsNum.num price).mul fee).div (.num 100))
  let hookMinus := (JsNum.num price).sub (((JsNum.num price).mul fee).div (.num 100))
  let eff : JsNum :=
    if isBuyingETH s.amount0 then
      ((chainlinkPrice.toNum.sub hookPlus).div chainlinkPrice.toNum).mul (.num 100)
    else
      ((hookMinus.sub chainlinkPrice.toNum).div chainlinkPrice.toNum).mul (.num 100)
  { chainlinkPrice := chainlinkPrice
    timeDifference := timeDifference
    priceDifferencePercent :=
      (((JsNum.num price).sub chainlinkPrice.toNum).div chainlinkPrice.toNum).mul (.num 100)
    dynamicLeveryFeePercent := fee
    leveryEfficiencyPercent := eff }

/-- Trade used by the C3 evaluation: buys 1 ETH for 3000 USDC at
timestamp 100. -/
def buyTrade : Swap := ⟨1, -3000, 1, 100, 1⟩

/-- C3: the claim fails on the code.  When no observation qualifies, the
time gap does carry the sentinel, but the output deviation percent and the
efficiency percent are NaN, because line 301 recomputes the deviation from
the sentinel and lines 277-284 divide by it.  When the matched oracle
price is zero, the same fields become Infinity and -Infinity. -/
theorem unavailable_oracle_fields_become_nan :
    (swapDataJS [] buyTrade).timeDifference = JsVal.na ∧
    (swapDataJS [] buyTrade).priceDifferencePercent = JsNum.nan ∧
    (swapDataJS [] buyTrade).leveryEfficiencyPercent = JsNum.nan ∧
    (swapDataJS [⟨1, 50, 0⟩] buyTrade).priceDifferencePercent = JsNum.inf ∧
    (swapDataJS [⟨1, 50, 0⟩] buyTrade).leveryEfficiencyPercent = JsNum.ninf := by
  have hp : tradePrice (-3000) 1 = 3000 := by norm_num [tradePrice]
  have hm0 : matchObservation [] (100 : ℤ) = none := by decide
  have hm1 : matchObservation [⟨1, 50, 0⟩] (100 : ℤ) = some ⟨1, 50, 0⟩ := by decide
  have hb : isBuyingETH (-3000) = true := decide_eq_true (by norm_num)
  refine ⟨?_, ?_, ?_, ?_, ?_⟩ <;>
    norm_num [swapDataJS, buyTrade, hp, hm0, hm1, hb, JsVal.toNum, JsNum.sub, JsNum.neg,
      JsNum.add, JsNum.div, JsNum.mul, JsNum.mabs]

/-- Efficiency total of part_000 lines 199 and 286: a fold of the
per-trade efficiency percents starting at zero. -/
def totalLeveryEfficiencyPercent (prices : List PriceEntry) (swaps : List Swap) : JsNum :=
  swaps.foldl (fun acc s => acc.add (swapDataJS prices s).leveryEfficiencyPercent) (.num 0)

/-- Report average of part_000 line 321: the efficiency total divided by
the number of swaps processed, with no guard on the count. -/
def averageLeveryEfficiencyPercent (prices : List PriceEntry) (swaps : List Swap) : JsNum :=
  (totalLeveryEfficiencyPercent prices swaps).div (.num (swaps.length : ℚ))

/-- C6: the claim fails on the code.  For an empty retrieved trade list
the finalisation divides zero by a swap count of zero and the reported
average efficiency percent is NaN. -/
theorem averageEfficiency_empty_run_is_nan (prices : List PriceEntry) :
    averageLeveryEfficiencyPercent prices [] = JsNum.nan := by
  norm_num [averageLeveryEfficiencyPercent, totalLeveryEfficiencyPercent, JsNum.div]

end LeverySim
